import Mathlib

/-!
The todo list of `todo.go`, served over HTTP from a MySQL table.

A shallow embedding of `src/todo/todo.go` (package `main`): the two HTTP
handlers `todoList` and `saveItem` and the connection helper `db`.

The program is sequential glue between `net/http`, `html/template` and
`database/sql`.  Everything outside the file is made explicit:

* the MySQL store is a value of type `Store`, threaded through every call;
* `log.Fatal` is the result `Run.exit`: the process ends, the store stays;
* each library call whose `err` the source receives has its outcome fixed by
  an `Env` (the faults of one handler invocation) together with the store.

Go strings are modelled by `String` (valid UTF-8 text), Go `int` by `Int`.
-/

namespace TodoApp

/-! ## Constants of the source -/

/-- The constant `dbHost`. -/
def dbHost : String := "mysql-service:3306"

/-- The constant `dbUser`. -/
def dbUser : String := "root"

/-- The constant `dbPassword`. -/
def dbPassword : String := "password"

/-- The constant `dbName`. -/
def dbName : String := "todo"

/-! ## Data model -/

/-- Todo represents a single todo, or item (`type Todo struct`). -/
structure Todo where
  ID : Int
  Item : String
deriving DecidableEq

/-- One row of the table `items` as `db` declares it:
`id integer NOT NULL AUTO_INCREMENT`, `item varchar(255)` (nullable, so
`none` is SQL `NULL`). -/
structure Row where
  id : Int
  item : Option String
deriving DecidableEq

/-- The table `items`: its rows in the order a scan without `ORDER BY`
delivers them (the primary-key order of rows inserted with growing ids), and
the `AUTO_INCREMENT` counter, the id the next insert receives. -/
structure Table where
  rows : List Row
  autoInc : Nat
deriving DecidableEq

/-- The state of the MySQL schema `todo` as far as the program touches it:
whether the server runs in strict SQL mode, and the table `items`
(`none` while the table does not exist). -/
structure Store where
  strict : Bool
  items : Option Table
deriving DecidableEq

/-- The outcomes, during one handler invocation, of the library calls whose
error result the source receives: `sql.Open`, the `CREATE TABLE` statement,
the `SELECT`, `Prepare`, the `INSERT`, and the writes to the
`http.ResponseWriter` (`some k`: the connection takes `k` characters and then
fails). A flag only adds a failure; a statement can also fail on the store
itself (missing table, rejected value, exhausted ids). -/
structure Env where
  openErr : Bool
  createErr : Bool
  queryErr : Bool
  prepareErr : Bool
  execErr : Bool
  writeLimit : Option Nat
deriving DecidableEq

/-- The environment in which no library call fails. -/
def Env.ok : Env := ⟨false, false, false, false, false, none⟩

/-- The part of `*http.Request` the handlers can observe: the method and the
parsed form (`r.Form`), as key/value pairs in the order of precedence of
`FormValue` (body parameters before URL query parameters). -/
structure Request where
  method : String
  form : List (String × String)
deriving DecidableEq

/-- What a handler has put on its `http.ResponseWriter` when it returns:
status code, `Location` header and body. -/
structure Response where
  status : Nat
  location : Option String
  body : String
deriving DecidableEq

/-- The handle `*sql.DB` returned by `sql.Open`, identified by its data source
name. -/
structure Conn where
  dsn : String
deriving DecidableEq

/-- The result of running a piece of the program against the store:
`exit s` is `log.Fatal` (the process terminates, the store is left as `s`),
`ret a s` is a normal return with value `a`. -/
inductive Run (α : Type) where
  | exit (s : Store) : Run α
  | ret (a : α) (s : Store) : Run α
deriving DecidableEq

/-- The store a run leaves behind, whichever way it ended. -/
def Run.store {α : Type} : Run α → Store
  | .exit s => s
  | .ret _ s => s

/-- The rows of `items`, none when the table does not exist. -/
def Store.rows (s : Store) : List Row :=
  match s.items with
  | none => []
  | some t => t.rows

/-- The id the next inserted row receives: the `AUTO_INCREMENT` counter of
`items`, 1 for the table that is yet to be created. -/
def Store.counter (s : Store) : Nat :=
  match s.items with
  | none => 1
  | some t => t.autoInc

/-! ## The store: the three SQL statements of the source -/

/-- The largest value of a MySQL `integer` column. -/
def maxInteger : Nat := 2147483647

/-- Whether the connection can carry the character: `db` opens it with
`charset=utf8`, MySQL's character set of at most three bytes per character,
which ends at U+FFFF. -/
def carried (c : Char) : Bool :=
  decide (c.toNat ≤ 65535)

/-- The value the column `item varchar(255)` keeps for a string assigned over
the `charset=utf8` connection (MySQL reference manual, "The CHAR and VARCHAR
Types" and "The utf8mb3 Character Set"). Without strict SQL mode the value is
cut at its first character the connection cannot carry and then to 255
characters. In strict SQL mode the statement fails (`none`) on a character the
connection cannot carry and on a value of more than 255 characters, except
that excess characters that are all spaces are cut off instead. The table is
taken to store its text in the character set of the connection. -/
def columnValue (strict : Bool) (v : String) : Option String :=
  if strict then
    if v.data.all carried then
      if v.length ≤ 255 then some v
      else if (v.data.drop 255).all (fun c => c == ' ') then some ⟨v.data.take 255⟩
      else none
    else none
  else some ⟨(v.data.takeWhile carried).take 255⟩

/-- The statement `CREATE TABLE IF NOT EXISTS items(id integer NOT NULL
AUTO_INCREMENT, item varchar(255), PRIMARY KEY (id))`: an existing table is
left alone, otherwise an empty one is created whose counter starts at 1. -/
def createTable (s : Store) : Store :=
  match s.items with
  | some _ => s
  | none => { s with items := some ⟨[], 1⟩ }

/-- The statement `SELECT * FROM items`: the rows in scan order; `none` when
the table does not exist. -/
def selectAll (s : Store) : Option (List Row) :=
  match s.items with
  | none => none
  | some t => some t.rows

/-- The statement `INSERT items SET item=?` with argument `v`: the new row
takes the counter as its id and the column value of `v` as its text. The
statement fails (`none`, store unchanged) when the table does not exist, when
the counter has passed the largest `integer`, when a row with that id exists
already (`PRIMARY KEY (id)`), or when the column rejects `v`. -/
def insertItem (s : Store) (v : String) : Option Store :=
  match s.items with
  | none => none
  | some t =>
    if t.autoInc > maxInteger then none
    else if t.rows.any (fun row => row.id == (t.autoInc : Int)) then none
    else
      match columnValue s.strict v with
      | none => none
      | some kept =>
        some { s with items := some ⟨t.rows ++ [⟨(t.autoInc : Int), some kept⟩], t.autoInc + 1⟩ }

/-! ## Library calls made by the handlers -/

/-- The call `r.FormValue(key)`: the first value of the form for `key`, the empty
string when there is none. -/
def FormValue (r : Request) (key : String) : String :=
  match r.form.find? (fun p => p.1 == key) with
  | some p => p.2
  | none => ""

/-- The escaping `html/template` applies to a value printed in HTML text
(its `htmlReplacementTable`): NUL becomes U+FFFD and the characters
`"`, `&`, apostrophe, `+`, `<`, `>` become character references. -/
def escapeChar (c : Char) : List Char :=
  if c = Char.ofNat 0 then [Char.ofNat 0xFFFD]
  else if c = Char.ofNat 34 then "&#34;".data
  else if c = '&' then "&amp;".data
  else if c = Char.ofNat 39 then "&#39;".data
  else if c = '+' then "&#43;".data
  else if c = '<' then "&lt;".data
  else if c = '>' then "&gt;".data
  else [c]

/-- The escaped form of a whole string. -/
def htmlEscape (v : String) : String :=
  ⟨v.data.flatMap escapeChar⟩

/-- The template text before the `range` action. -/
def pageHead : String :=
  "\n<html>\n\t<head>\n\t\t<title>List of items</title>\n\t</head>\n\t<body>\n\t\t<h1>Todo list:</h1>\n\t\t<form action=\"/save\" method=\"post\">\n\t\t\tAdd item: <input type=\"text\" name=\"item\" /><br />\n\t\t\t<input type=\"submit\" value=\"Add\" /><br /><hr />\n\t\t</form>\n\t\t<ul>\n\t\t"

/-- The template text after the `end` action. -/
def pageTail : String :=
  "\n\t\t</ul>\n\t</body>\n</html>\n"

/-- The opening text of the body of the `range` action, up to the value. -/
def liOpen : String := "\n\t\t\t<li>"

/-- The closing text of the body of the `range` action, after the value. -/
def liClose : String := "</li>\n\t\t"

/-- One pass through the body of the `range` action for the element `t`:
the list entry showing `t.Item`. -/
def entry (t : Todo) : String :=
  liOpen ++ htmlEscape t.Item ++ liClose

/-- The output of the `range` action over `.TodoItems`: one pass per element,
in order. -/
def entries : List Todo → String
  | [] => ""
  | t :: ts => entry t ++ entries ts

/-- The document the template `todolist` produces for the data
`TodoItems: todos`. -/
def render (todos : List Todo) : String :=
  pageHead ++ entries todos ++ pageTail

/-- Writing `doc` to the `http.ResponseWriter`: the part that reaches the
response, and whether the write returned an error. -/
def Write (env : Env) (doc : String) : String × Bool :=
  match env.writeLimit with
  | none => (doc, false)
  | some k => if doc.length ≤ k then (doc, false) else (⟨doc.data.take k⟩, true)

/-- The call `t.Execute(w, data)`: the rendered document is written to `w` (status 200
with the first write); the error of a failed write is the result. -/
def Execute (env : Env) (todos : List Todo) : Response × Bool :=
  (⟨200, none, (Write env (render todos)).1⟩, (Write env (render todos)).2)

/-- The call `rows.Scan(&todo.ID, &todo.Item)` on a fresh `todo := Todo{}`: the
columns are assigned in order; a `NULL` text cannot be converted to a Go
string, so the call returns an error after `ID` has been assigned and `Item`
keeps its zero value. The result is the todo and whether `err != nil`. -/
def Scan (row : Row) : Todo × Bool :=
  match row.item with
  | some v => (⟨row.id, v⟩, false)
  | none => (⟨row.id, ""⟩, true)

/-- The loop `for rows.Next() { todo := Todo{}; err = rows.Scan(...);
todos = append(todos, todo) }`: every row appends its todo, whatever `err`
is. -/
def scanLoop : List Row → List Todo → List Todo
  | [], todos => todos
  | row :: rest, todos => scanLoop rest (todos ++ [(Scan row).1])

/-- The call `dbc.Query("SELECT * FROM items")`: `none` is `err != nil`. -/
def Query (env : Env) (s : Store) : Option (List Row) :=
  if env.queryErr then none else selectAll s

/-- The call `dbc.Prepare("INSERT items SET item=?")`: `false` is `err != nil`; the
server refuses to prepare the statement when the table does not exist. -/
def Prepare (env : Env) (s : Store) : Bool :=
  !env.prepareErr && s.items.isSome

/-- The call `stmt.Exec(v)`: `none` is `err != nil`. -/
def Exec (env : Env) (s : Store) (v : String) : Option Store :=
  if env.execErr then none else insertItem s v

/-- The call `http.Redirect(w, r, url, code)` for a `url` that is an absolute path in
clean form (as `/` is): the `Location` header is `url`, the status is `code`,
and a `GET` request also receives a short HTML body. -/
def Redirect (env : Env) (r : Request) (url : String) (code : Nat) : Response :=
  ⟨code, some url,
    if r.method = "GET" then
      (Write env ("<a href=\"" ++ url ++ "\">" ++ "Moved Permanently" ++ "</a>.\n\n")).1
    else ""⟩

/-! ## The program -/

/-- The call `db.Exec` with the `CREATE TABLE IF NOT EXISTS` statement: the
store after it and whether `err != nil`. A failed statement leaves the store
as it was. -/
def ExecCreate (env : Env) (s : Store) : Store × Bool :=
  if env.createErr then (s, true) else (createTable s, false)

/-- The function `db`: creates a connection to the database and creates the
items table if it does not already exist. An error of `sql.Open` is fatal; the
error of the `CREATE TABLE` statement is assigned to `err` and the handle is
returned without looking at it. -/
def db (env : Env) (s : Store) : Run Conn :=
  let connStr :=
    dbUser ++ ":" ++ dbPassword ++ "@tcp(" ++ dbHost ++ ")/" ++ dbName ++
      "?charset=utf8&parseTime=True&loc=Local"
  if env.openErr then .exit s
  else
    let (s1, _err) := ExecCreate env s
    .ret ⟨connStr⟩ s1

/-- The handler `todoList`: shows the todo list along with the form to add a
new item to the list. The template text is a constant that parses, so the
`log.Fatal` after `Parse` is never reached. The request `r` is not read. -/
def todoList (env : Env) (s : Store) (_r : Request) : Run Response :=
  match db env s with
  | .exit s1 => .exit s1
  | .ret _ s1 =>
    match Query env s1 with
    | none => .exit s1
    | some rows =>
      let todos := scanLoop rows []
      .ret (Execute env todos).1 s1

/-- The handler `saveItem`: saves a new todo item and then redirects the user
back to the list. -/
def saveItem (env : Env) (s : Store) (r : Request) : Run Response :=
  match db env s with
  | .exit s1 => .exit s1
  | .ret _ s1 =>
    if Prepare env s1 then
      match Exec env s1 (FormValue r "item") with
      | none => .exit s1
      | some s2 => .ret (Redirect env r "/" 301) s2
    else .exit s1

/-! ## Runs of several requests, and the notions the statements use -/

/-- The data source name `db` builds with `fmt.Sprintf` from the constants. -/
def dataSourceName : String :=
  "root:password@tcp(mysql-service:3306)/todo?charset=utf8&parseTime=True&loc=Local"

/-- Running `db` once per environment of the list, each run on the store the
previous one left; `none` as soon as a run ends in `log.Fatal`. -/
def dbRepeat : List Env → Store → Option Store
  | [], s => some s
  | env :: rest, s =>
    match db env s with
    | .exit _ => none
    | .ret _ s1 => dbRepeat rest s1

/-- Serving a sequence of save requests one after the other, each with its
own environment; `none` as soon as one of them terminates the process, else
the store after the last redirect. -/
def saveAll : List (Env × Request) → Store → Option Store
  | [], s => some s
  | q :: rest, s =>
    match saveItem q.1 s q.2 with
    | .exit _ => none
    | .ret _ s1 => saveAll rest s1

/-- The text a list entry shows for a row: the row's text, nothing for
`NULL`. -/
def Row.text (row : Row) : String :=
  match row.item with
  | some v => v
  | none => ""

/-- The number of positions of `doc` at which `pat` starts. -/
def occurrences (pat : List Char) : List Char → Nat
  | [] => 0
  | c :: cs => (if pat.isPrefixOf (c :: cs) then 1 else 0) + occurrences pat cs

/-- The number of list entries of a document: how often the tag `<li>`
opens in it. -/
def countEntries (doc : String) : Nat :=
  occurrences "<li>".data doc.data

/-- A text of `n` letters `a`. -/
def letters (n : Nat) : String :=
  ⟨List.replicate n 'a'⟩

/-- The text of 255 letters `a` followed by one space. -/
def lettersSpace : String :=
  ⟨List.replicate 255 'a' ++ [' ']⟩

/-- The three-character text `a`, U+1F600, `b`; its middle character lies
beyond U+FFFF. -/
def smiley : String :=
  ⟨['a', Char.ofNat 128512, 'b']⟩


/-! ## Basic facts about the store and the library calls -/

theorem createTable_rows (s : Store) : (createTable s).rows = s.rows := by
  unfold createTable Store.rows
  cases h : s.items <;> simp [h]

theorem createTable_strict (s : Store) : (createTable s).strict = s.strict := by
  unfold createTable
  cases h : s.items <;> simp

theorem createTable_of_some (s : Store) (t : Table) (h : s.items = some t) :
    createTable s = s := by
  unfold createTable
  simp [h]

theorem createTable_of_none (s : Store) (h : s.items = none) :
    createTable s = ⟨s.strict, some ⟨[], 1⟩⟩ := by
  unfold createTable
  simp [h]

theorem db_eq (env : Env) (s : Store) :
    db env s =
      if env.openErr then .exit s else .ret ⟨dataSourceName⟩ (ExecCreate env s).1 := by
  rfl

theorem ExecCreate_rows (env : Env) (s : Store) : (ExecCreate env s).1.rows = s.rows := by
  unfold ExecCreate
  split
  · rfl
  · exact createTable_rows s

theorem ExecCreate_strict (env : Env) (s : Store) :
    (ExecCreate env s).1.strict = s.strict := by
  unfold ExecCreate
  split
  · rfl
  · exact createTable_strict s

theorem columnValue_short (strict : Bool) (v : String) (h : v.length ≤ 255)
    (hc : v.data.all carried = true) : columnValue strict v = some v := by
  unfold columnValue
  cases strict
  · have h1 : v.data.takeWhile carried = v.data := by
      rw [List.takeWhile_eq_self_iff]
      intro c hmem
      exact (List.all_eq_true.1 hc) c hmem
    have h2 : v.data.take 255 = v.data := List.take_of_length_le h
    simp [h1, h2]
  · simp [h, hc]

theorem columnValue_kept (strict : Bool) (v kept : String)
    (h : columnValue strict v = some kept) :
    kept = ⟨(v.data.takeWhile carried).take 255⟩ := by
  unfold columnValue at h
  cases strict
  · simp only [Bool.false_eq_true, if_false, Option.some.injEq] at h
    exact h.symm
  · simp only [if_true] at h
    split at h
    · rename_i hc
      have h1 : v.data.takeWhile carried = v.data := by
        rw [List.takeWhile_eq_self_iff]
        intro c hmem
        exact (List.all_eq_true.1 hc) c hmem
      rw [h1]
      split at h
      · rename_i hlen
        simp only [Option.some.injEq] at h
        rw [← h, List.take_of_length_le hlen]
      · split at h
        · simp only [Option.some.injEq] at h
          exact h.symm
        · cases h
    · cases h

theorem insertItem_some (s s2 : Store) (v : String) (h : insertItem s v = some s2) :
    ∃ t kept, s.items = some t ∧ t.autoInc ≤ maxInteger ∧
      (∀ row ∈ t.rows, row.id ≠ (t.autoInc : Int)) ∧
      columnValue s.strict v = some kept ∧
      s2 = ⟨s.strict, some ⟨t.rows ++ [⟨(t.autoInc : Int), some kept⟩], t.autoInc + 1⟩⟩ := by
  unfold insertItem at h
  cases hi : s.items with
  | none => simp [hi] at h
  | some t =>
    simp only [hi] at h
    split at h
    · cases h
    · split at h
      · cases h
      · rename_i hmax hany
        cases hc : columnValue s.strict v with
        | none => simp [hc] at h
        | some kept =>
          simp only [hc, Option.some.injEq] at h
          refine ⟨t, kept, rfl, by omega, ?_, rfl, h.symm⟩
          intro row hrow hid
          apply hany
          rw [List.any_eq_true]
          exact ⟨row, hrow, by simp [hid]⟩

theorem saveItem_eq (env : Env) (s : Store) (r : Request) :
    saveItem env s r =
      if env.openErr then .exit s
      else if Prepare env (ExecCreate env s).1 then
        match Exec env (ExecCreate env s).1 (FormValue r "item") with
        | none => .exit (ExecCreate env s).1
        | some s2 => .ret (Redirect env r "/" 301) s2
      else .exit (ExecCreate env s).1 := by
  unfold saveItem
  rw [db_eq]
  cases env.openErr <;> rfl

theorem saveItem_ret (env : Env) (s s2 : Store) (r : Request) (resp : Response)
    (h : saveItem env s r = .ret resp s2) :
    env.openErr = false ∧ Prepare env (ExecCreate env s).1 = true ∧
      Exec env (ExecCreate env s).1 (FormValue r "item") = some s2 ∧
      resp = Redirect env r "/" 301 := by
  rw [saveItem_eq] at h
  cases hopen : env.openErr with
  | true => simp [hopen] at h
  | false =>
    cases hprep : Prepare env (ExecCreate env s).1 with
    | false => simp [hopen, hprep] at h
    | true =>
      cases hexec : Exec env (ExecCreate env s).1 (FormValue r "item") with
      | none => simp [hopen, hprep, hexec] at h
      | some s3 =>
        simp only [hopen, hprep, hexec, Bool.false_eq_true, if_false, if_true,
          Run.ret.injEq] at h
        exact ⟨rfl, rfl, by rw [h.2], h.1.symm⟩

theorem saveItem_ret_rows (env : Env) (s s2 : Store) (r : Request) (resp : Response)
    (h : saveItem env s r = .ret resp s2) :
    ∃ n kept, n ≤ maxInteger ∧ (∀ row ∈ s.rows, row.id ≠ (n : Int)) ∧
      columnValue s.strict (FormValue r "item") = some kept ∧
      s2 = ⟨s.strict, some ⟨s.rows ++ [⟨(n : Int), some kept⟩], n + 1⟩⟩ := by
  obtain ⟨_, _, hexec, _⟩ := saveItem_ret env s s2 r resp h
  unfold Exec at hexec
  split at hexec
  · cases hexec
  · obtain ⟨t, kept, hi, hmax, hfresh, hc, hs2⟩ := insertItem_some _ _ _ hexec
    have hrows : t.rows = s.rows := by
      have := ExecCreate_rows env s
      unfold Store.rows at this
      rw [hi] at this
      simpa [Store.rows] using this
    rw [ExecCreate_strict] at hc hs2
    rw [hrows] at hs2 hfresh
    exact ⟨t.autoInc, kept, hmax, hfresh, hc, hs2⟩

theorem dbRepeat_of_table (envs : List Env) (s : Store) (t : Table)
    (ht : s.items = some t) (hok : ∀ e ∈ envs, e.openErr = false) :
    dbRepeat envs s = some s := by
  induction envs with
  | nil => rfl
  | cons e rest ih =>
    have he : e.openErr = false := hok e (List.mem_cons_self e rest)
    have hdb : db e s = .ret ⟨dataSourceName⟩ s := by
      rw [db_eq]
      unfold ExecCreate
      cases e.createErr <;> simp [he, createTable_of_some s t ht]
    unfold dbRepeat
    rw [hdb]
    exact ih (fun e1 h1 => hok e1 (List.mem_cons_of_mem e h1))

theorem Scan_fst (row : Row) : (Scan row).1 = ⟨row.id, row.text⟩ := by
  unfold Scan Row.text
  cases row.item <;> rfl

theorem scanLoop_eq (rows : List Row) (acc : List Todo) :
    scanLoop rows acc = acc ++ rows.map (fun row => (⟨row.id, row.text⟩ : Todo)) := by
  induction rows generalizing acc with
  | nil => simp [scanLoop]
  | cons row rest ih =>
    unfold scanLoop
    rw [ih, Scan_fst]
    simp

theorem todoList_eq (env : Env) (s : Store) (r : Request) :
    todoList env s r =
      if env.openErr then .exit s
      else
        match Query env (ExecCreate env s).1 with
        | none => .exit (ExecCreate env s).1
        | some rows =>
          .ret ⟨200, none,
            (Write env (render (rows.map (fun row => (⟨row.id, row.text⟩ : Todo))))).1⟩
            (ExecCreate env s).1 := by
  unfold todoList
  rw [db_eq]
  cases env.openErr
  · simp only [Bool.false_eq_true, if_false]
    cases Query env (ExecCreate env s).1 with
    | none => rfl
    | some rows =>
      simp only [Execute, scanLoop_eq, List.nil_append]
  · rfl

theorem todoList_store_rows (env : Env) (s : Store) (r : Request) :
    (todoList env s r).store.rows = s.rows := by
  rw [todoList_eq]
  cases env.openErr
  · simp only [Bool.false_eq_true, if_false]
    cases Query env (ExecCreate env s).1 <;> exact ExecCreate_rows env s
  · rfl

/-! ## Counting the list entries of a document -/

theorem countEntries_eq (doc : String) :
    countEntries doc = occurrences ['<', 'l', 'i', '>'] doc.data := by
  rfl

theorem occurrences_cons (pat : List Char) (c : Char) (cs : List Char) :
    occurrences pat (c :: cs) =
      (if pat.isPrefixOf (c :: cs) then 1 else 0) + occurrences pat cs := by
  rfl

theorem occurrences_cons_ne (c : Char) (cs : List Char) (h : c ≠ '<') :
    occurrences ['<', 'l', 'i', '>'] (c :: cs) = occurrences ['<', 'l', 'i', '>'] cs := by
  have hc : ('<' == c) = false := by
    simp only [beq_eq_false_iff_ne, ne_eq]
    exact fun e => h e.symm
  simp [occurrences, List.isPrefixOf, hc]

theorem occurrences_append_of_noLt (a rest : List Char) (h : ∀ c ∈ a, c ≠ '<') :
    occurrences ['<', 'l', 'i', '>'] (a ++ rest) = occurrences ['<', 'l', 'i', '>'] rest := by
  induction a with
  | nil => rfl
  | cons c a ih =>
    rw [List.cons_append, occurrences_cons_ne _ _ (h c (List.mem_cons_self c a))]
    exact ih (fun d hd => h d (List.mem_cons_of_mem c hd))

theorem isPrefixOf_append_right (p x y : List Char) (h : p.length ≤ x.length) :
    p.isPrefixOf (x ++ y) = p.isPrefixOf x := by
  induction p generalizing x with
  | nil => simp [List.isPrefixOf]
  | cons a p ih =>
    cases x with
    | nil => simp at h
    | cons b x =>
      rw [List.cons_append, List.isPrefixOf_cons₂, List.isPrefixOf_cons₂,
        ih x (by simpa using h)]

theorem occurrences_append_tail (a b rest : List Char) (hb : ∀ c ∈ b, c ≠ '<')
    (hlen : 3 ≤ b.length) :
    occurrences ['<', 'l', 'i', '>'] (a ++ (b ++ rest)) =
      occurrences ['<', 'l', 'i', '>'] (a ++ b) + occurrences ['<', 'l', 'i', '>'] rest := by
  induction a with
  | nil =>
    have h0 : occurrences ['<', 'l', 'i', '>'] b = 0 := by
      have := occurrences_append_of_noLt b [] hb
      simpa [occurrences] using this
    simp only [List.nil_append, h0, Nat.zero_add]
    exact occurrences_append_of_noLt b rest hb
  | cons c a ih =>
    have hp : List.isPrefixOf ['<', 'l', 'i', '>'] (c :: (a ++ (b ++ rest))) =
        List.isPrefixOf ['<', 'l', 'i', '>'] (c :: (a ++ b)) := by
      have := isPrefixOf_append_right ['<', 'l', 'i', '>'] (c :: (a ++ b)) rest
        (by simp only [List.length_cons, List.length_append, List.length_nil]; omega)
      simpa using this
    rw [List.cons_append, List.cons_append, occurrences_cons, occurrences_cons, hp, ih]
    omega

theorem escapeChar_noLt (a c : Char) (h : c ∈ escapeChar a) : c ≠ '<' := by
  unfold escapeChar at h
  split at h
  · simp only [List.mem_singleton] at h
    subst h
    decide
  split at h
  · have : ∀ d ∈ "&#34;".data, d ≠ '<' := by decide
    exact this c h
  split at h
  · have : ∀ d ∈ "&amp;".data, d ≠ '<' := by decide
    exact this c h
  split at h
  · have : ∀ d ∈ "&#39;".data, d ≠ '<' := by decide
    exact this c h
  split at h
  · have : ∀ d ∈ "&#43;".data, d ≠ '<' := by decide
    exact this c h
  split at h
  · have : ∀ d ∈ "&lt;".data, d ≠ '<' := by decide
    exact this c h
  split at h
  · have : ∀ d ∈ "&gt;".data, d ≠ '<' := by decide
    exact this c h
  · rename_i hlt _
    simp only [List.mem_singleton] at h
    subst h
    exact hlt

theorem htmlEscape_noLt (v : String) : ∀ c ∈ (htmlEscape v).data, c ≠ '<' := by
  intro c hc
  unfold htmlEscape at hc
  obtain ⟨a, _, ha⟩ := List.mem_flatMap.1 hc
  exact escapeChar_noLt a c ha

set_option maxRecDepth 100000 in
theorem occurrences_pageHead (rest : List Char) :
    occurrences ['<', 'l', 'i', '>'] (pageHead.data ++ rest) =
      occurrences ['<', 'l', 'i', '>'] rest := by
  have hsplit : pageHead.data =
      pageHead.data.take (pageHead.data.length - 3) ++
        pageHead.data.drop (pageHead.data.length - 3) :=
    (List.take_append_drop _ _).symm
  have hb : ∀ c ∈ pageHead.data.drop (pageHead.data.length - 3), c ≠ '<' := by decide
  have hlen : 3 ≤ (pageHead.data.drop (pageHead.data.length - 3)).length := by decide
  have h0 : occurrences ['<', 'l', 'i', '>'] pageHead.data = 0 := by decide
  rw [hsplit, List.append_assoc, occurrences_append_tail _ _ rest hb hlen, ← hsplit, h0,
    Nat.zero_add]

theorem occurrences_entry (t : Todo) (rest : List Char) :
    occurrences ['<', 'l', 'i', '>'] ((entry t).data ++ rest) =
      1 + occurrences ['<', 'l', 'i', '>'] rest := by
  have h1 : (entry t).data ++ rest =
      ['\n', '\t', '\t', '\t'] ++ ('<' :: 'l' :: 'i' :: '>' ::
        ((htmlEscape t.Item).data ++ ('<' :: (['/', 'l', 'i', '>', '\n', '\t', '\t'] ++ rest)))) := by
    simp [entry, liOpen, liClose, String.data_append]
  rw [h1, occurrences_append_of_noLt _ _ (by decide)]
  have h2 : ∀ X : List Char, occurrences ['<', 'l', 'i', '>'] ('<' :: 'l' :: 'i' :: '>' :: X) =
      1 + occurrences ['<', 'l', 'i', '>'] X := by
    intro X
    have e : occurrences ['<', 'l', 'i', '>'] ('<' :: 'l' :: 'i' :: '>' :: X) =
        1 + occurrences ['<', 'l', 'i', '>'] ('l' :: 'i' :: '>' :: X) := by
      simp [occurrences, List.isPrefixOf]
    rw [e, occurrences_cons_ne _ _ (by decide), occurrences_cons_ne _ _ (by decide),
      occurrences_cons_ne _ _ (by decide)]
  have h3 : ∀ X : List Char, occurrences ['<', 'l', 'i', '>'] ('<' :: '/' :: X) =
      occurrences ['<', 'l', 'i', '>'] X := by
    intro X
    have e : occurrences ['<', 'l', 'i', '>'] ('<' :: '/' :: X) =
        occurrences ['<', 'l', 'i', '>'] ('/' :: X) := by
      simp [occurrences, List.isPrefixOf]
    rw [e, occurrences_cons_ne _ _ (by decide)]
  rw [h2, occurrences_append_of_noLt _ _ (htmlEscape_noLt t.Item)]
  show 1 + occurrences ['<', 'l', 'i', '>']
    ('<' :: '/' :: (['l', 'i', '>', '\n', '\t', '\t'] ++ rest)) = _
  rw [h3, occurrences_append_of_noLt _ _ (by decide)]

theorem occurrences_entries (todos : List Todo) (rest : List Char) :
    occurrences ['<', 'l', 'i', '>'] ((entries todos).data ++ rest) =
      todos.length + occurrences ['<', 'l', 'i', '>'] rest := by
  induction todos with
  | nil => simp [entries]
  | cons t ts ih =>
    simp only [entries, String.data_append, List.append_assoc, List.length_cons]
    rw [occurrences_entry, ih]
    omega

theorem countEntries_render (todos : List Todo) :
    countEntries (render todos) = todos.length := by
  have h0 : occurrences ['<', 'l', 'i', '>'] pageTail.data = 0 := by decide
  rw [countEntries_eq]
  simp only [render, String.data_append, List.append_assoc]
  rw [occurrences_pageHead, occurrences_entries, h0]
  rfl

/-! ## The rendered list and the saved texts -/

theorem foldl_append_eq (l : List String) (acc : String) :
    l.foldl (fun r s => r ++ s) acc = acc ++ l.foldl (fun r s => r ++ s) "" := by
  induction l generalizing acc with
  | nil => simp
  | cons x xs ih =>
    simp only [List.foldl_cons]
    rw [ih (acc ++ x), ih ("" ++ x)]
    simp [String.append_assoc]

theorem join_cons (x : String) (xs : List String) :
    String.join (x :: xs) = x ++ String.join xs := by
  unfold String.join
  simp only [List.foldl_cons]
  rw [foldl_append_eq]
  simp

theorem entries_map_eq_join (rows : List Row) :
    entries (rows.map (fun row => (⟨row.id, row.text⟩ : Todo))) =
      String.join (rows.map (fun row => liOpen ++ htmlEscape row.text ++ liClose)) := by
  induction rows with
  | nil => rfl
  | cons row rest ih =>
    simp only [List.map_cons, entries, join_cons, ih]
    rfl

theorem Query_some (env : Env) (s : Store) (rows : List Row)
    (h : Query env s = some rows) : rows = s.rows := by
  unfold Query at h
  split at h
  · cases h
  · unfold selectAll at h
    unfold Store.rows
    cases hi : s.items with
    | none => simp [hi] at h
    | some t =>
      simp only [hi, Option.some.injEq] at h
      exact h.symm

theorem Write_of_noLimit (env : Env) (doc : String) (h : env.writeLimit = none) :
    (Write env doc).1 = doc := by
  unfold Write
  simp [h]

theorem todoList_ret (env : Env) (s s1 : Store) (r : Request) (resp : Response)
    (h : todoList env s r = .ret resp s1) :
    s1 = (ExecCreate env s).1 ∧ Query env s1 = some s.rows ∧
      resp = ⟨200, none,
        (Write env (render (s.rows.map (fun row => (⟨row.id, row.text⟩ : Todo))))).1⟩ := by
  rw [todoList_eq] at h
  cases hopen : env.openErr with
  | true => simp [hopen] at h
  | false =>
    cases hq : Query env (ExecCreate env s).1 with
    | none => simp [hopen, hq] at h
    | some rows =>
      simp only [hopen, hq, Bool.false_eq_true, if_false, Run.ret.injEq] at h
      have hrows : rows = s.rows := by
        rw [Query_some env _ rows hq, ExecCreate_rows]
      rw [← h.2, hq, ← h.1, hrows]
      exact ⟨rfl, rfl, rfl⟩

theorem saveAll_texts (reqs : List (Env × Request)) (s0 s : Store)
    (hshort : ∀ q ∈ reqs, (FormValue q.2 "item").length ≤ 255 ∧
      (FormValue q.2 "item").data.all carried = true)
    (h : saveAll reqs s0 = some s) :
    s.rows.map Row.text = s0.rows.map Row.text ++ reqs.map (fun q => FormValue q.2 "item") := by
  induction reqs generalizing s0 with
  | nil =>
    simp only [saveAll, Option.some.injEq] at h
    simp [h]
  | cons q rest ih =>
    unfold saveAll at h
    cases hq : saveItem q.1 s0 q.2 with
    | exit s1 => simp [hq] at h
    | ret resp s1 =>
      simp only [hq] at h
      obtain ⟨n, kept, _, _, hc, hs1⟩ := saveItem_ret_rows q.1 s0 s1 q.2 resp hq
      have hq1 := hshort q (List.mem_cons_self q rest)
      rw [columnValue_short _ _ hq1.1 hq1.2] at hc
      cases hc
      rw [ih s1 (fun q1 h1 => hshort q1 (List.mem_cons_of_mem q h1)) h, hs1]
      simp [Store.rows, Row.text]

theorem createTable_eq (s : Store) :
    createTable s = ⟨s.strict, some ⟨s.rows, s.counter⟩⟩ := by
  cases s with
  | mk strict items => cases items <;> rfl

theorem saveItem_ok (env : Env) (s : Store) (r : Request)
    (henv : env.openErr = false ∧ env.createErr = false ∧ env.prepareErr = false ∧
      env.execErr = false)
    (hbelow : ∀ row ∈ s.rows, row.id < (s.counter : Int))
    (hroom : s.counter ≤ maxInteger)
    (hlen : (FormValue r "item").length ≤ 255)
    (hchars : (FormValue r "item").data.all carried = true) :
    saveItem env s r =
      .ret (Redirect env r "/" 301)
        ⟨s.strict,
          some ⟨s.rows ++ [⟨(s.counter : Int), some (FormValue r "item")⟩], s.counter + 1⟩⟩ := by
  obtain ⟨hopen, hcr, hprep, hex⟩ := henv
  have hcreate : (ExecCreate env s).1 = ⟨s.strict, some ⟨s.rows, s.counter⟩⟩ := by
    unfold ExecCreate
    simp [hcr, createTable_eq]
  have hany : (s.rows.any fun row => row.id == (s.counter : Int)) = false := by
    rw [List.any_eq_false]
    intro row hrow
    have := hbelow row hrow
    simp only [beq_iff_eq]
    omega
  have hexec : Exec env ⟨s.strict, some ⟨s.rows, s.counter⟩⟩ (FormValue r "item") =
      some ⟨s.strict,
        some ⟨s.rows ++ [⟨(s.counter : Int), some (FormValue r "item")⟩], s.counter + 1⟩⟩ := by
    unfold Exec insertItem
    simp only [hex, Bool.false_eq_true, if_false, hany, columnValue_short _ _ hlen hchars]
    rw [if_neg (by omega)]
  rw [saveItem_eq, hcreate, hexec]
  simp [hopen, hprep, Prepare]

theorem saveAll_ok (reqs : List (Env × Request)) (s0 : Store)
    (henv : ∀ q ∈ reqs, q.1.openErr = false ∧ q.1.createErr = false ∧
      q.1.prepareErr = false ∧ q.1.execErr = false)
    (hbelow : ∀ row ∈ s0.rows, row.id < (s0.counter : Int))
    (hroom : s0.counter + reqs.length ≤ maxInteger + 1)
    (htexts : ∀ q ∈ reqs, (FormValue q.2 "item").length ≤ 255 ∧
      (FormValue q.2 "item").data.all carried = true) :
    ∃ s, saveAll reqs s0 = some s := by
  induction reqs generalizing s0 with
  | nil => exact ⟨s0, rfl⟩
  | cons q rest ih =>
    have hq := htexts q (List.mem_cons_self q rest)
    simp only [List.length_cons] at hroom
    have hsave := saveItem_ok q.1 s0 q.2 (henv q (List.mem_cons_self q rest)) hbelow
      (by omega) hq.1 hq.2
    simp only [saveAll, hsave]
    apply ih
    · exact fun q1 h1 => henv q1 (List.mem_cons_of_mem q h1)
    · intro row hrow
      have hrow1 : row ∈ s0.rows ++ [⟨(s0.counter : Int), some (FormValue q.2 "item")⟩] :=
        hrow
      show row.id < ((s0.counter + 1 : Nat) : Int)
      simp only [List.mem_append, List.mem_singleton] at hrow1
      rcases hrow1 with h1 | rfl
      · have := hbelow row h1
        push_cast
        omega
      · push_cast
        show (s0.counter : Int) < (s0.counter : Int) + 1
        omega
    · show s0.counter + 1 + rest.length ≤ maxInteger + 1
      omega
    · exact fun q1 h1 => htexts q1 (List.mem_cons_of_mem q h1)

theorem todoList_ok (env : Env) (s : Store) (r : Request)
    (henv : env.openErr = false ∧ env.createErr = false ∧ env.queryErr = false) :
    todoList env s r =
      .ret ⟨200, none,
        (Write env (render (s.rows.map (fun row => (⟨row.id, row.text⟩ : Todo))))).1⟩
        (createTable s) := by
  obtain ⟨hopen, hcr, hqe⟩ := henv
  rw [todoList_eq]
  have hcreate : (ExecCreate env s).1 = createTable s := by
    unfold ExecCreate
    simp [hcr]
  have hq : Query env (createTable s) = some s.rows := by
    rw [createTable_eq]
    unfold Query
    simp [hqe, selectAll]
  rw [hcreate, hq]
  simp [hopen]

theorem todoList_ret_body (env : Env) (s s1 : Store) (r : Request)
    (resp : Response) (h : todoList env s r = .ret resp s1)
    (hw : env.writeLimit = none) :
    resp.body =
        pageHead ++
          String.join (s.rows.map (fun row => liOpen ++ htmlEscape row.text ++ liClose)) ++
          pageTail ∧
      countEntries resp.body = s.rows.length := by
  obtain ⟨_, _, hresp⟩ := todoList_ret env s s1 r resp h
  rw [Write_of_noLimit env _ hw] at hresp
  subst hresp
  constructor
  · show render _ = _
    unfold render
    rw [entries_map_eq_join]
  · show countEntries (render _) = _
    rw [countEntries_render, List.length_map]

/-! ## The claims -/

/-- C3, the code as it is: when the `CREATE TABLE IF NOT EXISTS` statement
fails (and `sql.Open` did not), `db` does not terminate the process; it
returns the connection handle to its caller, on the store as it was. -/
theorem db_returns_handle_after_failed_create (s : Store) :
    (ExecCreate ⟨false, true, false, false, false, none⟩ s).2 = true ∧
      db ⟨false, true, false, false, false, none⟩ s = .ret ⟨dataSourceName⟩ s := by
  exact ⟨rfl, rfl⟩

/-- C7: schema bootstrap is idempotent. With no failure of `sql.Open` or of
the statement, any number of runs of `db` on a store that has the table
`items` return normally, report no statement error and leave the store (the
one table and its rows) as it was; one run on a store without the table
creates the empty table, and further runs on the result change nothing. -/
theorem schema_bootstrap_idempotent (e : Env) (envs : List Env) (s : Store)
    (he : e.openErr = false ∧ e.createErr = false)
    (hok : ∀ e1 ∈ envs, e1.openErr = false ∧ e1.createErr = false) :
    (∀ t, s.items = some t →
        dbRepeat envs s = some s ∧ ∀ e1 ∈ envs, (ExecCreate e1 s).2 = false) ∧
      (s.items = none →
        db e s = .ret ⟨dataSourceName⟩ ⟨s.strict, some ⟨[], 1⟩⟩ ∧
          (ExecCreate e s).2 = false ∧
          dbRepeat envs ⟨s.strict, some ⟨[], 1⟩⟩ = some ⟨s.strict, some ⟨[], 1⟩⟩) := by
  refine ⟨fun t ht => ⟨dbRepeat_of_table envs s t ht (fun e1 h1 => (hok e1 h1).1), ?_⟩,
    fun hn => ⟨?_, ?_, dbRepeat_of_table envs _ ⟨[], 1⟩ rfl (fun e1 h1 => (hok e1 h1).1)⟩⟩
  · intro e1 h1
    unfold ExecCreate
    simp [(hok e1 h1).2]
  · rw [db_eq]
    unfold ExecCreate
    simp [he.1, he.2, createTable_of_none s hn]
  · unfold ExecCreate
    simp [he.2]

/-- Witness of C7: two runs on a store holding one row, and a first run on a
store without the table. -/
theorem schema_bootstrap_idempotent_witness :
    (dbRepeat [Env.ok, Env.ok] ⟨true, some ⟨[⟨1, some "a"⟩], 2⟩⟩ =
        some ⟨true, some ⟨[⟨1, some "a"⟩], 2⟩⟩) ∧
      (db Env.ok ⟨true, none⟩ = .ret ⟨dataSourceName⟩ ⟨true, some ⟨[], 1⟩⟩) := by
  refine ⟨?_, ?_⟩
  · exact ((schema_bootstrap_idempotent Env.ok [Env.ok, Env.ok]
      ⟨true, some ⟨[⟨1, some "a"⟩], 2⟩⟩ ⟨rfl, rfl⟩
      (by intro e1 h1; simp at h1; subst h1; exact ⟨rfl, rfl⟩)).1 _ rfl).1
  · exact ((schema_bootstrap_idempotent Env.ok [] ⟨true, none⟩ ⟨rfl, rfl⟩
      (by intro e1 h1; simp at h1)).2 rfl).1

/-- C10: `todoList` does not read its request: for every store and every two
requests, whatever their method, body or form fields, the outcome (the
response and the store left behind) is the same. -/
theorem todoList_ignores_request (env : Env) (s : Store) (r1 r2 : Request) :
    todoList env s r1 = todoList env s r2 := by
  rfl

set_option maxRecDepth 100000 in
/-- C2 refuted: on a strict-mode store, with no library failure, the save of
a text of 256 letters terminates the process without a response, while the
save of a one-letter text on the same store is redirected; and when the
`INSERT` fails for a reason of its own, the save of the one-letter text
terminates the process as well. -/
theorem saveItem_outcome_depends_on_item :
    saveItem Env.ok ⟨true, none⟩ ⟨"POST", [("item", letters 256)]⟩ =
        .exit ⟨true, some ⟨[], 1⟩⟩ ∧
      saveItem Env.ok ⟨true, none⟩ ⟨"POST", [("item", "a")]⟩ =
        .ret ⟨301, some "/", ""⟩ ⟨true, some ⟨[⟨1, some "a"⟩], 2⟩⟩ ∧
      saveItem ⟨false, false, false, false, true, none⟩ ⟨true, none⟩
          ⟨"POST", [("item", "a")]⟩ =
        .exit ⟨true, some ⟨[], 1⟩⟩ := by
  refine ⟨?_, ?_, ?_⟩ <;> decide

/-- C2 amended: `saveItem` either terminates the process without a response,
exactly when `sql.Open`, `Prepare` or the `INSERT` fails, or answers with
status 301 and `Location: /`; that response is fixed by the request method
(a `GET` also gets the short HTML body) and never by the content of `item`. -/
theorem saveItem_exit_or_redirect (env : Env) (s : Store) (r : Request) :
    match saveItem env s r with
    | .exit _ =>
      env.openErr = true ∨ Prepare env (ExecCreate env s).1 = false ∨
        Exec env (ExecCreate env s).1 (FormValue r "item") = none
    | .ret resp s2 =>
      (env.openErr = false ∧ Prepare env (ExecCreate env s).1 = true ∧
        Exec env (ExecCreate env s).1 (FormValue r "item") = some s2) ∧
      resp.status = 301 ∧ resp.location = some "/" ∧
      resp.body =
        if r.method = "GET" then
          (Write env "<a href=\"/\">Moved Permanently</a>.\n\n").1
        else "" := by
  rw [saveItem_eq]
  cases hopen : env.openErr with
  | true => simp
  | false =>
    cases hprep : Prepare env (ExecCreate env s).1 with
    | false => simp
    | true =>
      cases hexec : Exec env (ExecCreate env s).1 (FormValue r "item") with
      | none => simp
      | some s3 =>
        simp only [Bool.false_eq_true, if_false, if_true]
        refine ⟨⟨trivial, trivial, trivial⟩, rfl, rfl, ?_⟩
        unfold Redirect
        split <;> rfl

set_option maxRecDepth 100000 in
/-- C5 refuted: a save can be redirected while the row it added does not
hold the submitted value. On a strict-mode store the text of 255 letters and
a space is stored without the space; on a store that is not in strict mode
the text of 256 letters is stored as 255 letters, and the text `a`, U+1F600,
`b` is stored as `a`. -/
theorem saveItem_redirect_after_truncation :
    (saveItem Env.ok ⟨true, none⟩ ⟨"POST", [("item", lettersSpace)]⟩ =
        .ret ⟨301, some "/", ""⟩ ⟨true, some ⟨[⟨1, some (letters 255)⟩], 2⟩⟩ ∧
      letters 255 ≠ FormValue ⟨"POST", [("item", lettersSpace)]⟩ "item") ∧
    (saveItem Env.ok ⟨false, none⟩ ⟨"POST", [("item", letters 256)]⟩ =
        .ret ⟨301, some "/", ""⟩ ⟨false, some ⟨[⟨1, some (letters 255)⟩], 2⟩⟩ ∧
      letters 255 ≠ FormValue ⟨"POST", [("item", letters 256)]⟩ "item") ∧
    (saveItem Env.ok ⟨false, none⟩ ⟨"POST", [("item", smiley)]⟩ =
        .ret ⟨301, some "/", ""⟩ ⟨false, some ⟨[⟨1, some "a"⟩], 2⟩⟩ ∧
      "a" ≠ FormValue ⟨"POST", [("item", smiley)]⟩ "item") := by
  refine ⟨⟨?_, ?_⟩, ⟨?_, ?_⟩, ?_, ?_⟩ <;> decide

/-- C5 amended: whenever `saveItem` issues its redirect, the insert has
succeeded on the store `db` left (no redirect without a successful insert),
and the store after the handler holds exactly one more row than before, at
the end, whose text is the value the column keeps for the submitted `item`:
the submitted value cut at its first character beyond U+FFFF and to 255
characters, which is the submitted value itself when it has at most 255
characters and none beyond U+FFFF. -/
theorem saveItem_persists_before_redirect (env : Env) (s s2 : Store) (r : Request)
    (resp : Response) (h : saveItem env s r = .ret resp s2) :
    Exec env (ExecCreate env s).1 (FormValue r "item") = some s2 ∧
      s2.rows.length = s.rows.length + 1 ∧
      ∃ id kept, s2.rows = s.rows ++ [⟨id, some kept⟩] ∧
        columnValue s.strict (FormValue r "item") = some kept ∧
        kept = ⟨((FormValue r "item").data.takeWhile carried).take 255⟩ ∧
        ((FormValue r "item").length ≤ 255 →
          (FormValue r "item").data.all carried = true → kept = FormValue r "item") := by
  obtain ⟨n, kept, _, _, hc, hs2⟩ := saveItem_ret_rows env s s2 r resp h
  refine ⟨(saveItem_ret env s s2 r resp h).2.2.1, ?_, (n : Int), kept, ?_, hc,
    columnValue_kept _ _ _ hc, ?_⟩
  · subst hs2
    simp [Store.rows]
  · subst hs2
    rfl
  · intro hlen hchars
    rw [columnValue_short _ _ hlen hchars] at hc
    cases hc
    rfl

/-- Witness of C5: the save of `buy milk` on the store without table is
redirected, and the store then holds the one row `buy milk`. -/
theorem saveItem_persists_before_redirect_witness :
    saveItem Env.ok ⟨true, none⟩ ⟨"POST", [("item", "buy milk")]⟩ =
        .ret ⟨301, some "/", ""⟩ ⟨true, some ⟨[⟨1, some "buy milk"⟩], 2⟩⟩ ∧
      Exec Env.ok (ExecCreate Env.ok ⟨true, none⟩).1 "buy milk" =
        some ⟨true, some ⟨[⟨1, some "buy milk"⟩], 2⟩⟩ ∧
      (⟨true, some ⟨[⟨1, some "buy milk"⟩], 2⟩⟩ : Store).rows.length =
        (⟨true, none⟩ : Store).rows.length + 1 ∧
      ∃ id kept,
        (⟨true, some ⟨[⟨1, some "buy milk"⟩], 2⟩⟩ : Store).rows =
          (⟨true, none⟩ : Store).rows ++ [⟨id, some kept⟩] ∧
        columnValue true "buy milk" = some kept ∧ kept = "buy milk" := by
  have h : saveItem Env.ok ⟨true, none⟩ ⟨"POST", [("item", "buy milk")]⟩ =
      .ret ⟨301, some "/", ""⟩ ⟨true, some ⟨[⟨1, some "buy milk"⟩], 2⟩⟩ := by
    decide
  obtain ⟨hexec, hlen, id, kept, hrows, hcol, _, hsame⟩ :=
    saveItem_persists_before_redirect Env.ok ⟨true, none⟩
      ⟨true, some ⟨[⟨1, some "buy milk"⟩], 2⟩⟩ ⟨"POST", [("item", "buy milk")]⟩
      ⟨301, some "/", ""⟩ h
  exact ⟨h, hexec, hlen, id, kept, hrows, hcol, hsame (by decide) (by decide)⟩

set_option maxRecDepth 100000 in
/-- C6 refuted: two successive saves of the same text can both be redirected
and add two rows that do not hold that text. On a strict-mode store the text
of 255 letters and a space is stored twice without the space; on a store
that is not in strict mode the text of 256 letters is stored twice as 255
letters, and the text `a`, U+1F600, `b` is stored twice as `a`. -/
theorem saveItem_twice_truncated :
    (saveItem Env.ok ⟨true, some ⟨[], 1⟩⟩ ⟨"POST", [("item", lettersSpace)]⟩ =
        .ret ⟨301, some "/", ""⟩ ⟨true, some ⟨[⟨1, some (letters 255)⟩], 2⟩⟩ ∧
      saveItem Env.ok ⟨true, some ⟨[⟨1, some (letters 255)⟩], 2⟩⟩
          ⟨"POST", [("item", lettersSpace)]⟩ =
        .ret ⟨301, some "/", ""⟩
          ⟨true, some ⟨[⟨1, some (letters 255)⟩, ⟨2, some (letters 255)⟩], 3⟩⟩ ∧
      letters 255 ≠ lettersSpace) ∧
    (saveItem Env.ok ⟨false, some ⟨[], 1⟩⟩ ⟨"POST", [("item", letters 256)]⟩ =
        .ret ⟨301, some "/", ""⟩ ⟨false, some ⟨[⟨1, some (letters 255)⟩], 2⟩⟩ ∧
      saveItem Env.ok ⟨false, some ⟨[⟨1, some (letters 255)⟩], 2⟩⟩
          ⟨"POST", [("item", letters 256)]⟩ =
        .ret ⟨301, some "/", ""⟩
          ⟨false, some ⟨[⟨1, some (letters 255)⟩, ⟨2, some (letters 255)⟩], 3⟩⟩ ∧
      letters 255 ≠ letters 256) ∧
    (saveItem Env.ok ⟨false, some ⟨[], 1⟩⟩ ⟨"POST", [("item", smiley)]⟩ =
        .ret ⟨301, some "/", ""⟩ ⟨false, some ⟨[⟨1, some "a"⟩], 2⟩⟩ ∧
      saveItem Env.ok ⟨false, some ⟨[⟨1, some "a"⟩], 2⟩⟩ ⟨"POST", [("item", smiley)]⟩ =
        .ret ⟨301, some "/", ""⟩ ⟨false, some ⟨[⟨1, some "a"⟩, ⟨2, some "a"⟩], 3⟩⟩ ∧
      "a" ≠ smiley) := by
  refine ⟨⟨?_, ?_, ?_⟩, ⟨?_, ?_, ?_⟩, ?_, ?_, ?_⟩ <;> decide

/-- C6 amended: save is not idempotent. For every text `t` and every store,
two successive redirected saves of `t` add two rows at the end, both holding
the value the column keeps for `t`: `t` cut at its first character beyond
U+FFFF and to 255 characters, which is `t` itself when it has at most 255
characters and none beyond U+FFFF. Their two ids are distinct and differ from
every id already in the store, so ids that were unique stay unique. -/
theorem saveItem_twice (env1 env2 : Env) (s s1 s2 : Store) (r1 r2 : Request)
    (resp1 resp2 : Response) (t : String)
    (ht1 : FormValue r1 "item" = t) (ht2 : FormValue r2 "item" = t)
    (h1 : saveItem env1 s r1 = .ret resp1 s1) (h2 : saveItem env2 s1 r2 = .ret resp2 s2) :
    (∃ id1 id2 kept, s2.rows = s.rows ++ [⟨id1, some kept⟩, ⟨id2, some kept⟩] ∧
      id1 ≠ id2 ∧ (∀ row ∈ s.rows, row.id ≠ id1 ∧ row.id ≠ id2) ∧
      columnValue s.strict t = some kept ∧
      kept = ⟨(t.data.takeWhile carried).take 255⟩ ∧
      (t.length ≤ 255 → t.data.all carried = true → kept = t)) ∧
      ((s.rows.map Row.id).Nodup → (s2.rows.map Row.id).Nodup) := by
  obtain ⟨n, kept, _, hfresh1, hc1, hs1⟩ := saveItem_ret_rows env1 s s1 r1 resp1 h1
  obtain ⟨m, kept2, _, hfresh2, hc2, hs2⟩ := saveItem_ret_rows env2 s1 s2 r2 resp2 h2
  have hstrict : s1.strict = s.strict := by rw [hs1]
  have hrows1 : s1.rows = s.rows ++ [⟨(n : Int), some kept⟩] := by rw [hs1]; rfl
  rw [ht1] at hc1
  rw [ht2, hstrict, hc1] at hc2
  cases hc2
  rw [hrows1] at hfresh2
  have hnm : (n : Int) ≠ (m : Int) := hfresh2 ⟨(n : Int), some kept⟩ (by simp)
  have hold : ∀ row ∈ s.rows, row.id ≠ (n : Int) ∧ row.id ≠ (m : Int) :=
    fun row hrow => ⟨hfresh1 row hrow, hfresh2 row (by simp [hrow])⟩
  refine ⟨⟨n, m, kept, ?_, hnm, hold, hc1, columnValue_kept _ _ _ hc1, ?_⟩, ?_⟩
  · rw [hs2, hrows1]
    simp [Store.rows]
  · intro hlen hchars
    rw [columnValue_short _ _ hlen hchars] at hc1
    cases hc1
    rfl
  · intro hnd
    have e : s2.rows.map Row.id = s.rows.map Row.id ++ [(n : Int), (m : Int)] := by
      rw [hs2, hrows1]
      simp [Store.rows]
    rw [e, List.nodup_append]
    refine ⟨hnd, ?_, ?_⟩
    · simp [hnm]
    · intro a ha hb
      obtain ⟨row, hrow, rfl⟩ := List.mem_map.1 ha
      simp only [List.mem_cons, List.mem_singleton, List.not_mem_nil, or_false] at hb
      rcases hb with hb | hb
      · exact (hold row hrow).1 hb
      · exact (hold row hrow).2 hb

/-- Witness of C6: `buy milk` saved twice on a store holding one row with
id 1; the two new rows receive the ids 2 and 3 and both hold `buy milk`. -/
theorem saveItem_twice_witness :
    saveItem Env.ok ⟨true, some ⟨[⟨1, some "x"⟩], 2⟩⟩ ⟨"POST", [("item", "buy milk")]⟩ =
        .ret ⟨301, some "/", ""⟩
          ⟨true, some ⟨[⟨1, some "x"⟩, ⟨2, some "buy milk"⟩], 3⟩⟩ ∧
      saveItem Env.ok ⟨true, some ⟨[⟨1, some "x"⟩, ⟨2, some "buy milk"⟩], 3⟩⟩
          ⟨"POST", [("item", "buy milk")]⟩ =
        .ret ⟨301, some "/", ""⟩
          ⟨true, some ⟨[⟨1, some "x"⟩, ⟨2, some "buy milk"⟩, ⟨3, some "buy milk"⟩], 4⟩⟩ ∧
      (∃ id1 id2 kept,
        (⟨true, some ⟨[⟨1, some "x"⟩, ⟨2, some "buy milk"⟩, ⟨3, some "buy milk"⟩], 4⟩⟩ :
            Store).rows =
          (⟨true, some ⟨[⟨1, some "x"⟩], 2⟩⟩ : Store).rows ++
            [⟨id1, some kept⟩, ⟨id2, some kept⟩] ∧
        id1 ≠ id2 ∧
        (∀ row ∈ (⟨true, some ⟨[⟨1, some "x"⟩], 2⟩⟩ : Store).rows,
          row.id ≠ id1 ∧ row.id ≠ id2) ∧
        columnValue true "buy milk" = some kept ∧ kept = "buy milk") ∧
      (((⟨true, some ⟨[⟨1, some "x"⟩, ⟨2, some "buy milk"⟩, ⟨3, some "buy milk"⟩], 4⟩⟩ :
          Store).rows.map Row.id).Nodup) := by
  have h1 : saveItem Env.ok ⟨true, some ⟨[⟨1, some "x"⟩], 2⟩⟩
      ⟨"POST", [("item", "buy milk")]⟩ =
      .ret ⟨301, some "/", ""⟩
        ⟨true, some ⟨[⟨1, some "x"⟩, ⟨2, some "buy milk"⟩], 3⟩⟩ := by
    decide
  have h2 : saveItem Env.ok ⟨true, some ⟨[⟨1, some "x"⟩, ⟨2, some "buy milk"⟩], 3⟩⟩
      ⟨"POST", [("item", "buy milk")]⟩ =
      .ret ⟨301, some "/", ""⟩
        ⟨true, some ⟨[⟨1, some "x"⟩, ⟨2, some "buy milk"⟩, ⟨3, some "buy milk"⟩], 4⟩⟩ := by
    decide
  obtain ⟨⟨id1, id2, kept, hrows, hne, hold, hcol, _, hsame⟩, hnd⟩ :=
    saveItem_twice Env.ok Env.ok _ _ _ _ _ _ _ "buy milk" (by decide) (by decide) h1 h2
  exact ⟨h1, h2, ⟨id1, id2, kept, hrows, hne, hold, hcol, hsame (by decide) (by decide)⟩,
    hnd (by decide)⟩

set_option maxRecDepth 100000 in
/-- C9 refuted: a request handled by `saveItem` can add no row. When the
`INSERT` fails, or on a strict-mode store when the text has 256 letters, the
process is terminated and the table is left with the one row it had. -/
theorem saveItem_adds_no_row :
    saveItem ⟨false, false, false, false, true, none⟩ ⟨true, some ⟨[⟨1, some "a"⟩], 2⟩⟩
        ⟨"POST", [("item", "b")]⟩ =
      .exit ⟨true, some ⟨[⟨1, some "a"⟩], 2⟩⟩ ∧
    saveItem Env.ok ⟨true, some ⟨[⟨1, some "a"⟩], 2⟩⟩ ⟨"POST", [("item", letters 256)]⟩ =
      .exit ⟨true, some ⟨[⟨1, some "a"⟩], 2⟩⟩ := by
  refine ⟨?_, ?_⟩ <;> decide

/-- C9 amended: items are only ever created. For every store and every
request, after `todoList` the rows are the rows before, and after `saveItem`
they are the rows before, unchanged and in place, followed by exactly one new
row when the handler issued its redirect and by none when it terminated the
process. -/
theorem handlers_only_append (env : Env) (s : Store) (r : Request) :
    (todoList env s r).store.rows = s.rows ∧
      match saveItem env s r with
      | .ret _ s2 => ∃ row, s2.rows = s.rows ++ [row]
      | .exit s1 => s1.rows = s.rows := by
  refine ⟨todoList_store_rows env s r, ?_⟩
  cases h : saveItem env s r with
  | ret resp s2 =>
    obtain ⟨n, kept, _, _, _, hs2⟩ := saveItem_ret_rows env s s2 r resp h
    exact ⟨⟨(n : Int), some kept⟩, by rw [hs2]; rfl⟩
  | exit s1 =>
    show s1.rows = s.rows
    rw [saveItem_eq] at h
    cases hopen : env.openErr with
    | true =>
      simp only [hopen, if_true, Run.exit.injEq] at h
      rw [← h]
    | false =>
      have hrows := ExecCreate_rows env s
      cases hprep : Prepare env (ExecCreate env s).1 with
      | false =>
        simp only [hopen, hprep, Bool.false_eq_true, if_false, Run.exit.injEq] at h
        rw [← h, hrows]
      | true =>
        cases hexec : Exec env (ExecCreate env s).1 (FormValue r "item") with
        | none =>
          simp only [hopen, hprep, hexec, Bool.false_eq_true, if_false, if_true,
            Run.exit.injEq] at h
          rw [← h, hrows]
        | some s3 => simp [hopen, hprep, hexec] at h

/-- C8: whenever `todoList` renders its document and the write to the client
does not fail, the rows the `SELECT` returned are the rows of the store, the
status is 200, and the body is the template text around one list entry per
row, in the order of the rows, each showing the escaped text of its row
(nothing for a `NULL` text); the number of `<li>` tags in the body equals the
number of rows. -/
theorem todoList_one_entry_per_row (env : Env) (s s1 : Store) (r : Request)
    (resp : Response) (h : todoList env s r = .ret resp s1)
    (hw : env.writeLimit = none) :
    Query env s1 = some s.rows ∧ resp.status = 200 ∧
      resp.body =
        pageHead ++
          String.join (s.rows.map (fun row => liOpen ++ htmlEscape row.text ++ liClose)) ++
          pageTail ∧
      countEntries resp.body = s.rows.length := by
  obtain ⟨_, hq, hresp⟩ := todoList_ret env s s1 r resp h
  obtain ⟨hbody, hcount⟩ := todoList_ret_body env s s1 r resp h hw
  refine ⟨hq, ?_, hbody, hcount⟩
  rw [hresp]

/-- Witness of C8: a store with two rows, the first with text `a<b`. -/
theorem todoList_one_entry_per_row_witness :
    todoList Env.ok ⟨true, some ⟨[⟨1, some "a<b"⟩, ⟨2, some "c"⟩], 3⟩⟩ ⟨"GET", []⟩ =
        .ret ⟨200, none, pageHead ++ ("\n\t\t\t<li>a&lt;b</li>\n\t\t" ++
            "\n\t\t\t<li>c</li>\n\t\t") ++ pageTail⟩
          ⟨true, some ⟨[⟨1, some "a<b"⟩, ⟨2, some "c"⟩], 3⟩⟩ ∧
      countEntries (pageHead ++ ("\n\t\t\t<li>a&lt;b</li>\n\t\t" ++
            "\n\t\t\t<li>c</li>\n\t\t") ++ pageTail) =
        (⟨true, some ⟨[⟨1, some "a<b"⟩, ⟨2, some "c"⟩], 3⟩⟩ : Store).rows.length := by
  have h : todoList Env.ok ⟨true, some ⟨[⟨1, some "a<b"⟩, ⟨2, some "c"⟩], 3⟩⟩ ⟨"GET", []⟩ =
        .ret ⟨200, none, pageHead ++ ("\n\t\t\t<li>a&lt;b</li>\n\t\t" ++
            "\n\t\t\t<li>c</li>\n\t\t") ++ pageTail⟩
          ⟨true, some ⟨[⟨1, some "a<b"⟩, ⟨2, some "c"⟩], 3⟩⟩ := by
    rfl
  exact ⟨h, (todoList_one_entry_per_row Env.ok _ _ _ _ h rfl).2.2.2⟩

set_option maxRecDepth 100000 in
/-- C1 refuted: a save request need not lead to a list entry for its text.
The text of 255 letters and a space is listed without the space (strict
mode); the text of 256 letters is listed as 255 letters and the text `a`,
U+1F600, `b` as `a` (no strict mode), and in strict mode either of them
terminates the process and the list served afterwards is empty; a save whose
`INSERT` fails, or that finds the id counter beyond the largest `integer`,
terminates the process; and a list whose write fails after 10 characters shows
no entry for the saved text `a`. -/
theorem list_misses_long_item :
    (saveItem Env.ok ⟨true, none⟩ ⟨"POST", [("item", lettersSpace)]⟩ =
        .ret ⟨301, some "/", ""⟩ ⟨true, some ⟨[⟨1, some (letters 255)⟩], 2⟩⟩ ∧
      todoList Env.ok ⟨true, some ⟨[⟨1, some (letters 255)⟩], 2⟩⟩ ⟨"GET", []⟩ =
        .ret ⟨200, none, pageHead ++ (liOpen ++ letters 255 ++ liClose) ++ pageTail⟩
          ⟨true, some ⟨[⟨1, some (letters 255)⟩], 2⟩⟩ ∧
      letters 255 ≠ lettersSpace) ∧
    (saveItem Env.ok ⟨false, none⟩ ⟨"POST", [("item", letters 256)]⟩ =
        .ret ⟨301, some "/", ""⟩ ⟨false, some ⟨[⟨1, some (letters 255)⟩], 2⟩⟩ ∧
      todoList Env.ok ⟨false, some ⟨[⟨1, some (letters 255)⟩], 2⟩⟩ ⟨"GET", []⟩ =
        .ret ⟨200, none, pageHead ++ (liOpen ++ letters 255 ++ liClose) ++ pageTail⟩
          ⟨false, some ⟨[⟨1, some (letters 255)⟩], 2⟩⟩ ∧
      letters 255 ≠ letters 256) ∧
    (saveItem Env.ok ⟨false, none⟩ ⟨"POST", [("item", smiley)]⟩ =
        .ret ⟨301, some "/", ""⟩ ⟨false, some ⟨[⟨1, some "a"⟩], 2⟩⟩ ∧
      todoList Env.ok ⟨false, some ⟨[⟨1, some "a"⟩], 2⟩⟩ ⟨"GET", []⟩ =
        .ret ⟨200, none, pageHead ++ "\n\t\t\t<li>a</li>\n\t\t" ++ pageTail⟩
          ⟨false, some ⟨[⟨1, some "a"⟩], 2⟩⟩) ∧
    (saveItem Env.ok ⟨true, none⟩ ⟨"POST", [("item", letters 256)]⟩ =
        .exit ⟨true, some ⟨[], 1⟩⟩ ∧
      saveItem Env.ok ⟨true, none⟩ ⟨"POST", [("item", smiley)]⟩ =
        .exit ⟨true, some ⟨[], 1⟩⟩ ∧
      saveItem ⟨false, false, false, false, true, none⟩ ⟨true, none⟩
          ⟨"POST", [("item", "a")]⟩ =
        .exit ⟨true, some ⟨[], 1⟩⟩ ∧
      todoList Env.ok ⟨true, some ⟨[], 1⟩⟩ ⟨"GET", []⟩ =
        .ret ⟨200, none, pageHead ++ pageTail⟩ ⟨true, some ⟨[], 1⟩⟩) ∧
    (saveItem Env.ok ⟨true, some ⟨[], 2147483648⟩⟩ ⟨"POST", [("item", "a")]⟩ =
        .exit ⟨true, some ⟨[], 2147483648⟩⟩) ∧
    (saveItem Env.ok ⟨true, none⟩ ⟨"POST", [("item", "a")]⟩ =
        .ret ⟨301, some "/", ""⟩ ⟨true, some ⟨[⟨1, some "a"⟩], 2⟩⟩ ∧
      todoList ⟨false, false, false, false, false, some 10⟩
          ⟨true, some ⟨[⟨1, some "a"⟩], 2⟩⟩ ⟨"GET", []⟩ =
        .ret ⟨200, none, "\n<html>\n\t<"⟩ ⟨true, some ⟨[⟨1, some "a"⟩], 2⟩⟩) := by
  refine ⟨⟨?_, ?_, ?_⟩, ⟨?_, ?_, ?_⟩, ⟨?_, ?_⟩, ⟨?_, ?_, ?_, ?_⟩, ?_, ?_, ?_⟩ <;> decide

/-- C1 amended: start from a store without rows whose id counter can supply
one id per save without passing the largest `integer`, and let none of the
library calls the handlers make fail (`sql.Open`, the `CREATE TABLE`
statement, `Prepare` and the `INSERT` for a save; `sql.Open`, the `CREATE
TABLE` statement, the `SELECT` and the write of the response for the list).
Then for every sequence of save requests whose item texts have at most 255
characters each, none beyond U+FFFF (the empty text included), every save is
answered with its redirect and the list request that follows is answered with
status 200 and the template text around exactly one list entry per saved
text, in the order of the saves, showing that text escaped, and no other
entry: the body has as many `<li>` tags as there were saves. -/
theorem list_after_saves (reqs : List (Env × Request)) (env : Env) (s0 : Store)
    (r : Request) (hempty : s0.rows = [])
    (hroom : s0.counter + reqs.length ≤ maxInteger + 1)
    (hsave : ∀ q ∈ reqs, q.1.openErr = false ∧ q.1.createErr = false ∧
      q.1.prepareErr = false ∧ q.1.execErr = false)
    (hlist : env.openErr = false ∧ env.createErr = false ∧ env.queryErr = false ∧
      env.writeLimit = none)
    (htexts : ∀ q ∈ reqs, (FormValue q.2 "item").length ≤ 255 ∧
      (FormValue q.2 "item").data.all carried = true) :
    ∃ s s1 resp, saveAll reqs s0 = some s ∧
      todoList env s r = .ret resp s1 ∧ resp.status = 200 ∧
      resp.body =
        pageHead ++
          String.join (reqs.map
            (fun q => liOpen ++ htmlEscape (FormValue q.2 "item") ++ liClose)) ++
          pageTail ∧
      countEntries resp.body = reqs.length := by
  obtain ⟨s, hsaves⟩ := saveAll_ok reqs s0 hsave (by rw [hempty]; simp) hroom htexts
  have hret := todoList_ok env s r ⟨hlist.1, hlist.2.1, hlist.2.2.1⟩
  obtain ⟨hbody, hcount⟩ := todoList_ret_body env s _ r _ hret hlist.2.2.2
  have htext := saveAll_texts reqs s0 s htexts hsaves
  rw [hempty, List.map_nil, List.nil_append] at htext
  refine ⟨s, _, _, hsaves, hret, rfl, ?_, ?_⟩
  · rw [hbody]
    have e : s.rows.map (fun row => liOpen ++ htmlEscape row.text ++ liClose) =
        (s.rows.map Row.text).map (fun v => liOpen ++ htmlEscape v ++ liClose) := by
      rw [List.map_map]
      rfl
    rw [e, htext, List.map_map]
    rfl
  · rw [hcount]
    have := congrArg List.length htext
    simpa using this

/-- Witness of C1. The scenario of the specification: on the store without
table the save of `buy milk` is redirected, and the list served next has the
single entry `buy milk`. And on an empty table that is not in strict mode the
saves of the empty text and of `a<b` are redirected, and the list served next
has an empty entry followed by the entry of `a<b`, escaped. -/
theorem list_after_saves_witness :
    (∃ s s1 resp,
      saveAll [(Env.ok, ⟨"POST", [("item", "buy milk")]⟩)] ⟨true, none⟩ = some s ∧
      todoList Env.ok s ⟨"GET", []⟩ = .ret resp s1 ∧ resp.status = 200 ∧
      resp.body = pageHead ++ "\n\t\t\t<li>buy milk</li>\n\t\t" ++ pageTail ∧
      countEntries resp.body = 1) ∧
    (∃ s s1 resp,
      saveAll [(Env.ok, ⟨"POST", [("item", "")]⟩), (Env.ok, ⟨"POST", [("item", "a<b")]⟩)]
        ⟨false, some ⟨[], 1⟩⟩ = some s ∧
      todoList Env.ok s ⟨"GET", []⟩ = .ret resp s1 ∧ resp.status = 200 ∧
      resp.body =
        pageHead ++ ("\n\t\t\t<li></li>\n\t\t" ++ "\n\t\t\t<li>a&lt;b</li>\n\t\t") ++
          pageTail ∧
      countEntries resp.body = 2) := by
  constructor
  · exact list_after_saves [(Env.ok, ⟨"POST", [("item", "buy milk")]⟩)] Env.ok
      ⟨true, none⟩ ⟨"GET", []⟩ rfl (by decide) (by decide) (by decide) (by decide)
  · exact list_after_saves
      [(Env.ok, ⟨"POST", [("item", "")]⟩), (Env.ok, ⟨"POST", [("item", "a<b")]⟩)] Env.ok
      ⟨false, some ⟨[], 1⟩⟩ ⟨"GET", []⟩ rfl (by decide) (by decide) (by decide) (by decide)

set_option maxRecDepth 100000 in
/-- C4, the code as it is: a row whose text is `NULL` makes `rows.Scan` return
an error, and `todoList` goes on, appends the half-filled todo and answers with
a list that has an empty entry for it; a failed write of the rendered document
makes `Execute` return an error, and `todoList` returns normally, the process
alive, with the part that was written. -/
theorem todoList_ignores_scan_and_render_errors :
    ((Scan ⟨1, none⟩).2 = true ∧
      todoList Env.ok ⟨true, some ⟨[⟨1, none⟩, ⟨2, some "b"⟩], 3⟩⟩ ⟨"GET", []⟩ =
        .ret ⟨200, none, pageHead ++ ("\n\t\t\t<li></li>\n\t\t" ++
            "\n\t\t\t<li>b</li>\n\t\t") ++ pageTail⟩
          ⟨true, some ⟨[⟨1, none⟩, ⟨2, some "b"⟩], 3⟩⟩) ∧
    ((Execute ⟨false, false, false, false, false, some 10⟩ [⟨1, "b"⟩]).2 = true ∧
      todoList ⟨false, false, false, false, false, some 10⟩
          ⟨true, some ⟨[⟨1, some "b"⟩], 2⟩⟩ ⟨"GET", []⟩ =
        .ret ⟨200, none, "\n<html>\n\t<"⟩ ⟨true, some ⟨[⟨1, some "b"⟩], 2⟩⟩) := by
  refine ⟨⟨?_, ?_⟩, ?_, ?_⟩ <;> decide

end TodoApp
